import Mathlib

/-!
Verification development for the Telegram calendar-bot dialogue engine
(`Lab4/Bot_Test`): a shallow embedding of `handlers.py` (the dialogue state
machine) and of the pure parts of `calendar_client.py` (event-body
construction), together with theorems settling the specification claims.

Modelling conventions:
* One conversation identity is modelled at a time: the per-user entry of
  `MessageHandler.clarification_context` is an `Option PendingState`
  (`none` = no pending dialogue state for that user).
* Calendar and LLM collaborators are oracles: their responses are fields of
  `CalendarEnv` / `LLMEnv`, and the calls a turn makes are recorded in an
  explicit trace (`List CalCall`).
* Python truthiness of optional strings / lists (`if slots.title:` is false
  both for `None` and for `""`) is modelled by `strTruthy` / `listTruthy`.
* `str.lower()` is modelled on the alphabets this bot sees (ASCII + Cyrillic);
  `str.strip()` drops whitespace from both ends (`pyStrip`).
* Python `datetime` values are modelled as integer timestamps in seconds;
  `timedelta(minutes=m)` is `m * 60`.  `datetime.fromisoformat` (a standard
  library collaborator) is modelled by `isoParse`, restricted to the
  ISO-8601 shapes this bot exchanges; malformed input yields `none`, which
  the embeddings turn into the source's `except` fallbacks.
-/

/-- Python truthiness of an optional string: `None` and `""` are falsy. -/
def strTruthy : Option String → Bool
  | none => false
  | some s => !s.isEmpty

/-- Python truthiness of an optional list: `None` and `[]` are falsy. -/
def listTruthy : Option (List String) → Bool
  | none => false
  | some l => !l.isEmpty

/-- Model of Python `str.lower` on one character, covering the alphabets the
bot exchanges: ASCII `A`-`Z` and Cyrillic `А`-`Я`, `Ё`. -/
def lowerChar (c : Char) : Char :=
  let n := c.toNat
  if 65 ≤ n ∧ n ≤ 90 then Char.ofNat (n + 32)
  else if 1040 ≤ n ∧ n ≤ 1071 then Char.ofNat (n + 32)
  else if n = 1025 then Char.ofNat 1105
  else c

/-- Model of Python `str.lower` (ASCII + Cyrillic). -/
def pyLower (s : String) : String := String.mk (s.toList.map lowerChar)

/-- Model of Python `str.strip()`: drop whitespace from both ends. -/
def pyStrip (s : String) : String :=
  String.mk (((s.toList.dropWhile Char.isWhitespace).reverse.dropWhile
    Char.isWhitespace).reverse)

/-- `', '.join(...)` from Python. -/
def commaJoin (l : List String) : String := String.intercalate ", " l

/-- Model of Python `datetime.fromisoformat` restricted to the ISO-8601
shapes this bot exchanges (`YYYY-MM-DD` and `YYYY-MM-DD[T ]HH:MM...`):
returns the date component `YYYY-MM-DD` and the time component `HH:MM`
(midnight for a bare date), `none` when parsing fails (which the call
sites turn into the source's `except` fall-backs). -/
def isoParse (s : String) : Option (String × String) :=
  match s.toList with
  | [y1, y2, y3, y4, '-', m1, m2, '-', d1, d2] =>
      if [y1, y2, y3, y4, m1, m2, d1, d2].all Char.isDigit then
        some (String.mk [y1, y2, y3, y4, '-', m1, m2, '-', d1, d2], "00:00")
      else none
  | y1 :: y2 :: y3 :: y4 :: '-' :: m1 :: m2 :: '-' :: d1 :: d2 :: t :: h1 :: h2 :: ':' :: mi1 :: mi2 :: _ =>
      if (t = 'T' ∨ t = ' ') ∧ [y1, y2, y3, y4, m1, m2, d1, d2, h1, h2, mi1, mi2].all Char.isDigit then
        some (String.mk [y1, y2, y3, y4, '-', m1, m2, '-', d1, d2],
              String.mk [h1, h2, ':', mi1, mi2])
      else none
  | _ => none

/-- `datetime.strftime("%d.%m.%Y")` applied to a parsed `YYYY-MM-DD` date. -/
def dateToDMY (d : String) : String :=
  match d.toList with
  | [y1, y2, y3, y4, '-', m1, m2, '-', d1, d2] =>
      String.mk [d1, d2, '.', m1, m2, '.', y1, y2, y3, y4]
  | _ => d

/-- `MessageHandler._format_datetime_for_user`: parse ISO-8601 (after
replacing `Z` by `+00:00`) and render `"%d.%m.%Y %H:%M"`; on a parse
failure return the input unchanged. -/
def formatDatetimeForUser (dtStr : String) : String :=
  match isoParse (dtStr.replace "Z" "+00:00") with
  | some (d, hm) => dateToDMY d ++ " " ++ hm
  | none => dtStr

/-- `MessageHandler._format_date_for_user`: parse `"%Y-%m-%d"` and render
`"%d.%m.%Y"`; on failure return the input unchanged. -/
def formatDateForUser (dateStr : String) : String :=
  match isoParse dateStr with
  | some (d, _) => if d = dateStr then dateToDMY d else dateStr
  | none => dateStr

/-- `schema.ClarifyModel`. -/
structure ClarifyModel where
  needed : Bool
  questions : List String
deriving Repr, DecidableEq

/-- `schema.SlotsModel`: every field independently optional (`None` when
unspecified). -/
structure SlotsModel where
  title : Option String := none
  start : Option String := none
  «end» : Option String := none
  date : Option String := none
  participants : Option (List String) := none
  description : Option String := none
  location : Option String := none
  event_id : Option String := none
deriving Repr, DecidableEq

/-- `schema.LLMResponseModel`; `intent` ranges over
`{"create", "list", "delete", "unknown"}` and `confidence` is modelled as a
rational in `[0, 1]`. -/
structure LLMResponseModel where
  intent : String
  confidence : ℚ
  slots : SlotsModel
  clarify : ClarifyModel
deriving Repr, DecidableEq

/-- `config.Config`: the two configuration values the modelled core reads,
with their source-code defaults (`0.80` and `60`). -/
structure Config where
  LLM_CONFIDENCE_THRESHOLD : ℚ := 4 / 5
  DEFAULT_EVENT_DURATION_MIN : Int := 60

/-- The configuration with both environment variables unset. -/
def defaultConfig : Config := {}

/-- One calendar event as returned by the calendar backend (the dict fields
the handlers read; a backend event always carries an `id`). -/
structure CalEvent where
  id : String
  summary : Option String := none
  startDateTime : Option String := none
  startDate : Option String := none
deriving Repr, DecidableEq

/-- The dict `CalendarClient.create_event` returns on success. -/
structure CreatedEvent where
  id : String
  htmlLink : Option String := none
deriving Repr, DecidableEq

/-- One entry of `MessageHandler.clarification_context`: the three shapes
the dict takes, as a tagged union. -/
inductive PendingState where
  | clarifying (intent : String) (slots : SlotsModel)
      (questions : List String) (currentQuestionIndex : Nat)
  | waitingConfirmation (intent : String) (slots : SlotsModel)
  | waitingDeleteConfirmation (event_id : String)
deriving Repr, DecidableEq

/-- One call made to the calendar collaborator (`CalendarClient`), with its
arguments. -/
inductive CalCall where
  | create (title start : String) («end» description location : Option String)
      (participants : Option (List String))
  | listEvents (date : String)
  | deleteEvent (event_id : String)
deriving Repr, DecidableEq

/-- Oracle for the calendar collaborator's responses and for the wall
clock (`datetime.now()`). -/
structure CalendarEnv where
  createResult : Option CreatedEvent := none
  listResult : List CalEvent := []
  deleteResult : Bool := false
  today : String := "1970-01-01"

/-- Oracle for `LLMClient.parse_user_message` (`none` = HTTP failure,
malformed JSON or schema-validation failure). -/
structure LLMEnv where
  parseResult : Option LLMResponseModel := none

/-- What one turn of the bot produces: the replies sent, the calendar
calls made (in order), and the pending state left for this conversation
identity. -/
structure TurnOut where
  replies : List String
  calls : List CalCall
  state : Option PendingState
deriving Repr, DecidableEq

/-- The single description-update step from the participants loop of
`CalendarClient.create_event`: Python
`description += "\nУчастники: ..."` when `description` is truthy, else
`description = "Участники: ..."` (`j` is the already-joined label line). -/
def descAppend (d : Option String) (j : String) : Option String :=
  match d with
  | some s => if s.isEmpty then some j else some (s ++ "\n" ++ j)
  | none => some j

/-- The `for participant in participants` loop of
`CalendarClient.create_event` (lines 115-126): a participant containing
`"@"` is appended to `attendees`; otherwise the label
`"Участники: " ++ ', '.join(participants)` — note: the join of the FULL
parameter list, re-evaluated each iteration — is appended to the running
description.  `allParts` stays the full list throughout the loop. -/
def attendeesDescLoop (allParts : List String) :
    List String → List String → Option String → List String × Option String
  | [], atts, desc => (atts, desc)
  | p :: rest, atts, desc =>
      if p.toList.contains '@' then
        attendeesDescLoop allParts rest (atts ++ [p]) desc
      else
        attendeesDescLoop allParts rest atts
          (descAppend desc ("Участники: " ++ commaJoin allParts))

/-- The google-API event body `CalendarClient.create_event` builds
(`summary`/`start`/`end` always present; `description`, `location`,
`attendees` only when truthy).  Timestamps are in seconds. -/
structure EventBody where
  summary : String
  startDt : Int
  endDt : Int
  description : Option String := none
  location : Option String := none
  attendees : List String := []
deriving Repr, DecidableEq

/-- The pure part of `CalendarClient.create_event` (lines 104-148): the
event body sent to the calendar backend, over already-parsed timestamps
(`_parse_datetime` is the standard datetime library, modelled away; the
`end` default adds `timedelta(minutes=default_duration_min)`). -/
def create_event (cfg : Config) (title : String) (start_dt : Int)
    (end_dt : Option Int) (description : Option String)
    (location : Option String) (participants : Option (List String)) :
    EventBody :=
  let endV : Int :=
    match end_dt with
    | some e => e
    | none => start_dt + cfg.DEFAULT_EVENT_DURATION_MIN * 60
  let ps := participants.getD []
  let (atts, desc) := attendeesDescLoop ps ps [] description
  { summary := title
    startDt := start_dt
    endDt := endV
    description := if strTruthy desc then desc else none
    location := if strTruthy location then location else none
    attendees := atts }

/-- Whether `pat` occurs at the start of `l`. -/
def startsWithL [DecidableEq α] : List α → List α → Bool
  | [], _ => true
  | _ :: _, [] => false
  | a :: as, b :: bs => a = b && startsWithL as bs

/-- Whether `pat` occurs contiguously somewhere in `l` (model of Python's
substring test `pat in l`). -/
def containsL [DecidableEq α] (pat : List α) : List α → Bool
  | [] => pat.isEmpty
  | x :: t => startsWithL pat (x :: t) || containsL pat t

/-- `CalendarClient.find_events_by_title_and_date`: the events of the day
whose `summary` contains the requested title as a case-insensitive
substring (Python `title_lower in event_title`). -/
def find_events_by_title_and_date (env : CalendarEnv) (title : String)
    («date» : String) : List CalEvent :=
  let _ := «date»
  env.listResult.filter fun e =>
    containsL (pyLower title).toList (pyLower (e.summary.getD "")).toList

/-- The fixed help message for `intent = "unknown"` (lines 106-112). -/
def helpMessage : String :=
  "Извините, я не понял вашу команду. Попробуйте сказать, например:\n" ++
  "- Создать событие: 'назначь встречу на завтра в 15:00'\n" ++
  "- Показать события: 'покажи события на 27 ноября'\n" ++
  "- Удалить событие: 'удали встречу с Вадимом'"

/-- `MessageHandler._format_confirmation`. -/
def formatConfirmation (resp : LLMResponseModel) : String :=
  let action :=
    if resp.intent = "create" then "создать событие"
    else if resp.intent = "list" then "показать события"
    else if resp.intent = "delete" then "удалить событие"
    else "выполнить действие"
  let slots := resp.slots
  let parts :=
    ["Я правильно понял, что нужно " ++ action ++ "?"]
    ++ (if strTruthy slots.title then ["Название: " ++ slots.title.getD ""] else [])
    ++ (if strTruthy slots.start then
          ["Время начала: " ++ formatDatetimeForUser (slots.start.getD "")] else [])
    ++ (if strTruthy slots.«end» then
          ["Время окончания: " ++ formatDatetimeForUser (slots.«end».getD "")] else [])
    ++ (if strTruthy slots.location then ["Место: " ++ slots.location.getD ""] else [])
    ++ (if listTruthy slots.participants then
          ["Участники: " ++ commaJoin (slots.participants.getD [])] else [])
  String.intercalate "\n" parts

/-- The success reply of `MessageHandler._handle_create` (lines 241-256). -/
def createSuccessMessage (slots : SlotsModel) (ev : CreatedEvent) : String :=
  "✅ Событие создано!\n\n📅 " ++ slots.title.getD "" ++ "\n🕐 " ++
  formatDatetimeForUser (slots.start.getD "") ++ "\n" ++
  (if strTruthy slots.location then "📍 " ++ slots.location.getD "" ++ "\n" else "") ++
  (if listTruthy slots.participants then
      "👥 Участники: " ++ commaJoin (slots.participants.getD []) ++ "\n" else "") ++
  "\nID события: " ++ ev.id ++
  (if strTruthy ev.htmlLink then "\n🔗 " ++ ev.htmlLink.getD "" else "")

/-- `MessageHandler._handle_create`: validate title/start, then call the
collaborator's create operation and report the outcome.  Never stores a
pending state. -/
def handleCreate (env : CalendarEnv) (slots : SlotsModel) : TurnOut :=
  if !strTruthy slots.title || !strTruthy slots.start then
    { replies := ["Для создания события необходимо указать название и время начала. " ++
        "Пожалуйста, уточните эти данные."]
      calls := []
      state := none }
  else
    let call := CalCall.create (slots.title.getD "") (slots.start.getD "")
      slots.«end» slots.description slots.location slots.participants
    match env.createResult with
    | some ev =>
        { replies := [createSuccessMessage slots ev], calls := [call], state := none }
    | none =>
        { replies := ["❌ Не удалось создать событие. Проверьте правильность данных и попробуйте снова."]
          calls := [call]
          state := none }

/-- A `message += line(i, item)` loop over `enumerate(items, i0)`, as
`_handle_list` and `_handle_delete` build their listings. -/
def enumLines (f : Nat → α → String) : Nat → List α → String
  | _, [] => ""
  | i, x :: t => f i x ++ enumLines f (i + 1) t

/-- The target-date resolution shared by `_handle_list` (lines 271-281):
`slots.date`, else the date component of `slots.start`, else `none`. -/
def resolveTargetDate (slots : SlotsModel) : Option String :=
  if strTruthy slots.date then slots.date
  else if strTruthy slots.start then
    (isoParse ((slots.start.getD "").replace "Z" "+00:00")).map Prod.fst
  else none

/-- The per-event line data of `_handle_list` (lines 302-317). -/
def listEventLine (i : Nat) (e : CalEvent) : String :=
  let summary := e.summary.getD "Без названия"
  let start_time := e.startDateTime.getD (e.startDate.getD "")
  let time_str :=
    if !start_time.isEmpty then
      match isoParse (start_time.replace "Z" "+00:00") with
      | some (_, hm) => hm
      | none => start_time
    else "?"
  toString i ++ ". 🕐 " ++ time_str ++ " - " ++ summary ++ "\n   ID: " ++
    e.id.take 8 ++ "...\n\n"

/-- `MessageHandler._handle_list`. -/
def handleList (env : CalendarEnv) (slots : SlotsModel) : TurnOut :=
  match resolveTargetDate slots with
  | none =>
      { replies := ["Пожалуйста, укажите дату для просмотра событий. " ++
          "Например: 'покажи события на 27 ноября' или '/view 2025-11-27'"]
        calls := []
        state := none }
  | some target_date =>
      let events := env.listResult
      if events.isEmpty then
        { replies := ["📅 На " ++ formatDateForUser target_date ++ " нет запланированных событий."]
          calls := [CalCall.listEvents target_date]
          state := none }
      else
        { replies := ["📅 События на " ++ formatDateForUser target_date ++ ":\n\n" ++
            enumLines listEventLine 1 events]
          calls := [CalCall.listEvents target_date]
          state := none }

/-- The target-date resolution of `_handle_delete` (lines 347-360):
`slots.date`, else the date component of `slots.start`, else today. -/
def deleteTargetDate (env : CalendarEnv) (slots : SlotsModel) : String :=
  match resolveTargetDate slots with
  | some d => d
  | none => env.today

/-- The reply of the single-match branch of `_handle_delete`
(lines 373-392). -/
def deleteSingleMatchMessage (e : CalEvent) : String :=
  let summary := e.summary.getD "Без названия"
  let start_time := e.startDateTime.getD (e.startDate.getD "")
  "Найдено событие:\n\n📅 " ++ summary ++ "\n" ++
  (if !start_time.isEmpty then
    match isoParse (start_time.replace "Z" "+00:00") with
    | some (d, hm) => "🕐 " ++ d ++ " " ++ hm ++ "\n"
    | none => "🕐 " ++ start_time ++ "\n"
  else "") ++
  "\nУдалить это событие? (Да / Нет)"

/-- One line of the multiple-match listing of `_handle_delete`
(lines 405-408): 1-indexed, with the identifier truncated to 8
characters. -/
def deleteMultiLine (i : Nat) (e : CalEvent) : String :=
  toString i ++ ". " ++ e.summary.getD "Без названия" ++ " (ID: " ++
    e.id.take 8 ++ "...)\n"

/-- The reply of the multiple-match branch of `_handle_delete`
(lines 402-411). -/
def deleteMultiMatchMessage (title : String) (found : List CalEvent) : String :=
  "Найдено несколько событий с названием '" ++ title ++ "':\n\n" ++
  enumLines deleteMultiLine 1 found ++
  "\nПожалуйста, укажите ID события для удаления."

/-- `MessageHandler._handle_delete`: delete directly when `slots.event_id`
is present; otherwise search by title and date, then either report
not-found, store an awaiting-delete-confirmation state (exactly one
match), or list the candidates without storing any state (several
matches). -/
def handleDelete (env : CalendarEnv) (slots : SlotsModel) : TurnOut :=
  if strTruthy slots.event_id then
    { replies := [if env.deleteResult then "✅ Событие удалено."
                  else "❌ Не удалось удалить событие."]
      calls := [CalCall.deleteEvent (slots.event_id.getD "")]
      state := none }
  else if !strTruthy slots.title then
    { replies := ["Для удаления события необходимо указать его название. Пожалуйста, уточните."]
      calls := []
      state := none }
  else
    let title := slots.title.getD ""
    let target_date := deleteTargetDate env slots
    let matching_events := find_events_by_title_and_date env title target_date
    match matching_events with
    | [] =>
        { replies := ["Не найдено событий с названием '" ++ title ++ "' на " ++
            formatDateForUser target_date ++ "."]
          calls := [CalCall.listEvents target_date]
          state := none }
    | [e] =>
        { replies := [deleteSingleMatchMessage e]
          calls := [CalCall.listEvents target_date]
          state := some (PendingState.waitingDeleteConfirmation e.id) }
    | _ =>
        { replies := [deleteMultiMatchMessage title matching_events]
          calls := [CalCall.listEvents target_date]
          state := none }

/-- The intent dispatch of `_process_llm_response` (lines 98-112): run the
matching action handler, or the fixed help message for `"unknown"`. -/
def dispatchIntent (env : CalendarEnv) (resp : LLMResponseModel) : TurnOut :=
  if resp.intent = "create" then handleCreate env resp.slots
  else if resp.intent = "list" then handleList env resp.slots
  else if resp.intent = "delete" then handleDelete env resp.slots
  else if resp.intent = "unknown" then
    { replies := [helpMessage], calls := [], state := none }
  else
    { replies := [], calls := [], state := none }

/-- The yes/no confirmation prompt of `_process_llm_response`
(lines 93-95). -/
def confirmationPrompt (resp : LLMResponseModel) : String :=
  formatConfirmation resp ++ "\n\nПравильно ли я понял? (Да / Нет)"

/-- `MessageHandler._process_llm_response`: ask the first clarification
question when requested (and the question list is non-empty), else ask
for yes/no confirmation when the confidence is strictly below the
threshold, else dispatch the intent. -/
def processLLMResponse (cfg : Config) (env : CalendarEnv)
    (resp : LLMResponseModel) : TurnOut :=
  match resp.clarify.needed, resp.clarify.questions with
  | true, q :: qs =>
      { replies := [q]
        calls := []
        state := some (PendingState.clarifying resp.intent resp.slots (q :: qs) 0) }
  | _, _ =>
      if resp.confidence < cfg.LLM_CONFIDENCE_THRESHOLD then
        { replies := [confirmationPrompt resp]
          calls := []
          state := some (PendingState.waitingConfirmation resp.intent resp.slots) }
      else
        dispatchIntent env resp

/-- The affirmative token set of `_handle_clarification_response`. -/
def affirmativeTokens : List String := ["да", "yes", "давай", "ок", "хорошо"]

/-- The negative token set of `_handle_clarification_response`. -/
def negativeTokens : List String := ["нет", "no", "не", "неправильно"]

/-- The re-materialized Intent Result the confirmation branch builds
(lines 166-171): stored intent and slots, confidence forced to `1.0`,
no clarification request. -/
def rematerialize (intent : String) (slots : SlotsModel) : LLMResponseModel :=
  { intent := intent
    confidence := 1
    slots := slots
    clarify := { needed := false, questions := [] } }

/-- `MessageHandler._handle_clarification_response`: resume the pending
dialogue state with the user's raw reply. -/
def handleClarificationResponse (env : CalendarEnv) (st : PendingState)
    (user_message : String) : TurnOut :=
  match st with
  | PendingState.waitingDeleteConfirmation event_id =>
      let m := pyStrip (pyLower user_message)
      if m ∈ affirmativeTokens then
        if event_id ≠ "" then
          { replies := [if env.deleteResult then "✅ Событие удалено."
                        else "❌ Не удалось удалить событие."]
            calls := [CalCall.deleteEvent event_id]
            state := none }
        else
          { replies := [], calls := [], state := none }
      else if m ∈ negativeTokens then
        { replies := ["Хорошо, событие не будет удалено."], calls := [], state := none }
      else
        { replies := ["Пожалуйста, ответьте 'Да' или 'Нет'."], calls := [], state := some st }
  | PendingState.waitingConfirmation intent slots =>
      let m := pyStrip (pyLower user_message)
      if m ∈ affirmativeTokens then
        let temp := rematerialize intent slots
        if intent = "create" then handleCreate env temp.slots
        else if intent = "list" then handleList env temp.slots
        else if intent = "delete" then handleDelete env temp.slots
        else { replies := [], calls := [], state := none }
      else if m ∈ negativeTokens then
        { replies := ["Понятно. Пожалуйста, переформулируйте ваш запрос более подробно."]
          calls := []
          state := none }
      else
        { replies := ["Пожалуйста, ответьте 'Да' или 'Нет'."], calls := [], state := some st }
  | PendingState.clarifying intent slots questions current_index =>
      if current_index < questions.length - 1 then
        { replies := [questions.getD (current_index + 1) ""]
          calls := []
          state := some (PendingState.clarifying intent slots questions (current_index + 1)) }
      else
        { replies := ["Спасибо за уточнения. Обрабатываю ваш запрос..."
                      , "Пожалуйста, повторите ваш запрос с учетом уточнений."]
          calls := []
          state := none }

/-- `MessageHandler.handle_message`: route to the clarification-response
handler when a pending state exists for this conversation identity,
otherwise parse the message with the LLM and evaluate the fresh Intent
Result. -/
def handleMessage (cfg : Config) (env : CalendarEnv) (llm : LLMEnv)
    (stIn : Option PendingState) (text : String) : TurnOut :=
  let user_message := pyStrip text
  match stIn with
  | some st => handleClarificationResponse env st user_message
  | none =>
      match llm.parseResult with
      | none =>
          { replies := ["Извините, произошла ошибка при обработке вашего запроса. " ++
              "Попробуйте переформулировать."]
            calls := []
            state := none }
      | some resp => processLLMResponse cfg env resp

/-! ### Helper lemmas -/

theorem strAppend_assoc (a b c : String) : a ++ b ++ c = a ++ (b ++ c) := by
  apply String.ext
  simp [String.data_append, List.append_assoc]

theorem handleCreate_state (env : CalendarEnv) (slots : SlotsModel) :
    (handleCreate env slots).state = none := by
  unfold handleCreate
  split
  · rfl
  · split <;> rfl

theorem handleList_state (env : CalendarEnv) (slots : SlotsModel) :
    (handleList env slots).state = none := by
  unfold handleList
  split
  · rfl
  · dsimp only
    split <;> rfl

theorem handleDelete_state (env : CalendarEnv) (slots : SlotsModel) :
    (handleDelete env slots).state = none ∨
    ∃ eid, (handleDelete env slots).state =
      some (PendingState.waitingDeleteConfirmation eid) := by
  unfold handleDelete
  split
  · exact Or.inl rfl
  · split
    · exact Or.inl rfl
    · dsimp only
      split
      · exact Or.inl rfl
      · exact Or.inr ⟨_, rfl⟩
      · exact Or.inl rfl

theorem dispatchIntent_state (env : CalendarEnv) (resp : LLMResponseModel) :
    (dispatchIntent env resp).state = none ∨
    ∃ eid, (dispatchIntent env resp).state =
      some (PendingState.waitingDeleteConfirmation eid) := by
  unfold dispatchIntent
  split
  · exact Or.inl (handleCreate_state env resp.slots)
  · split
    · exact Or.inl (handleList_state env resp.slots)
    · split
      · exact handleDelete_state env resp.slots
      · split <;> exact Or.inl rfl

/-! ### C1 -/

/-- C1: with `clarify.needed = false`, the engine stores an
awaiting-intent-confirmation state and sends the yes/no confirmation
prompt exactly when `confidence < threshold` (strict); at
`confidence = threshold` (and above) it dispatches directly, and in the
strictly-below case no calendar call is made that turn. -/
theorem claim_C1 (cfg : Config) (env : CalendarEnv) (resp : LLMResponseModel)
    (hcl : resp.clarify.needed = false) :
    (((processLLMResponse cfg env resp).state =
        some (PendingState.waitingConfirmation resp.intent resp.slots) ∧
      (processLLMResponse cfg env resp).replies = [confirmationPrompt resp] ∧
      (processLLMResponse cfg env resp).calls = []) ↔
      resp.confidence < cfg.LLM_CONFIDENCE_THRESHOLD) ∧
    (cfg.LLM_CONFIDENCE_THRESHOLD ≤ resp.confidence →
      processLLMResponse cfg env resp = dispatchIntent env resp) := by
  obtain ⟨intent, conf, slots, clarify⟩ := resp
  obtain ⟨needed, questions⟩ := clarify
  simp only [ClarifyModel.needed] at hcl
  subst hcl
  have hred : processLLMResponse cfg env ⟨intent, conf, slots, ⟨false, questions⟩⟩ =
      if conf < cfg.LLM_CONFIDENCE_THRESHOLD then
        { replies := [confirmationPrompt ⟨intent, conf, slots, ⟨false, questions⟩⟩]
          calls := []
          state := some (PendingState.waitingConfirmation intent slots) }
      else dispatchIntent env ⟨intent, conf, slots, ⟨false, questions⟩⟩ := by
    unfold processLLMResponse
    rfl
  rw [hred]
  by_cases hlt : conf < cfg.LLM_CONFIDENCE_THRESHOLD
  · rw [if_pos hlt]
    exact ⟨by simp [hlt], fun hle => absurd hlt (not_lt.mpr hle)⟩
  · rw [if_neg hlt]
    refine ⟨⟨fun h => absurd h.1 ?_, fun h => absurd h hlt⟩, fun _ => rfl⟩
    rcases dispatchIntent_state env ⟨intent, conf, slots, ⟨false, questions⟩⟩ with h | ⟨eid, h⟩ <;>
      simp [h]

/-- C1 witness: confidence `0.80` at threshold `0.80` dispatches directly;
confidence `0.79` stores the confirmation state and makes no calendar
call. -/
theorem claim_C1_witness :
    processLLMResponse defaultConfig {} ⟨"create", 4/5, {}, ⟨false, []⟩⟩ =
      dispatchIntent {} ⟨"create", 4/5, {}, ⟨false, []⟩⟩ ∧
    (processLLMResponse defaultConfig {} ⟨"create", 79/100, {}, ⟨false, []⟩⟩).state =
      some (PendingState.waitingConfirmation "create" {}) ∧
    (processLLMResponse defaultConfig {} ⟨"create", 79/100, {}, ⟨false, []⟩⟩).calls = [] :=
  ⟨(claim_C1 defaultConfig {} ⟨"create", 4/5, {}, ⟨false, []⟩⟩ rfl).2
      (by norm_num [defaultConfig]),
   ((claim_C1 defaultConfig {} ⟨"create", 79/100, {}, ⟨false, []⟩⟩ rfl).1.mpr
      (by norm_num [defaultConfig])).1,
   ((claim_C1 defaultConfig {} ⟨"create", 79/100, {}, ⟨false, []⟩⟩ rfl).1.mpr
      (by norm_num [defaultConfig])).2.2⟩

/-! ### C2 -/

/-- C2: from an awaiting-delete-confirmation state carrying a (non-empty)
event identifier, a reply normalizing to "да" makes exactly one delete
call with that identifier, and the pending state is cleared whether the
delete succeeds or fails (`env.deleteResult` is arbitrary). -/
theorem claim_C2 (cfg : Config) (env : CalendarEnv) (llm : LLMEnv)
    (eid msg : String) (hE : eid ≠ "")
    (hmsg : pyStrip (pyLower (pyStrip msg)) = "да") :
    (handleMessage cfg env llm
        (some (PendingState.waitingDeleteConfirmation eid)) msg).calls =
      [CalCall.deleteEvent eid] ∧
    (handleMessage cfg env llm
        (some (PendingState.waitingDeleteConfirmation eid)) msg).state = none := by
  have hmem : ("да" ∈ affirmativeTokens) := by decide
  unfold handleMessage handleClarificationResponse
  dsimp only
  rw [hmsg, if_pos hmem, if_pos hE]
  exact ⟨rfl, rfl⟩

/-- C2 witness: event `"evt123"`, reply `"Да"`, backend delete failing —
the delete call is still made exactly once and the state is still
cleared. -/
theorem claim_C2_witness :
    (handleMessage defaultConfig {} {}
        (some (PendingState.waitingDeleteConfirmation "evt123")) "Да").calls =
      [CalCall.deleteEvent "evt123"] ∧
    (handleMessage defaultConfig {} {}
        (some (PendingState.waitingDeleteConfirmation "evt123")) "Да").state = none :=
  claim_C2 defaultConfig {} {} "evt123" "Да" (by decide) (by decide)

/-! ### C4 -/

/-- C4: a fresh Intent Result with `clarify.needed = true` (and, as the
data-model invariant guarantees, a non-empty question list) makes the
engine send exactly the first question and store an
awaiting-clarification state seeded with the full question sequence and
cursor 0. -/
theorem claim_C4 (cfg : Config) (env : CalendarEnv) (resp : LLMResponseModel)
    (q : String) (qs : List String) (hneeded : resp.clarify.needed = true)
    (hq : resp.clarify.questions = q :: qs) :
    (processLLMResponse cfg env resp).replies = [q] ∧
    (processLLMResponse cfg env resp).state =
      some (PendingState.clarifying resp.intent resp.slots (q :: qs) 0) ∧
    (processLLMResponse cfg env resp).calls = [] := by
  obtain ⟨intent, conf, slots, clarify⟩ := resp
  obtain ⟨needed, questions⟩ := clarify
  simp only [ClarifyModel.needed, ClarifyModel.questions] at hneeded hq
  subst hneeded
  subst hq
  exact ⟨rfl, rfl, rfl⟩

/-- C4 witness at a concrete two-question clarification request. -/
theorem claim_C4_witness :
    (processLLMResponse defaultConfig {}
        ⟨"create", 1/2, {}, ⟨true, ["Когда?", "Где?"]⟩⟩).replies = ["Когда?"] ∧
    (processLLMResponse defaultConfig {}
        ⟨"create", 1/2, {}, ⟨true, ["Когда?", "Где?"]⟩⟩).state =
      some (PendingState.clarifying "create" {} ["Когда?", "Где?"] 0) ∧
    (processLLMResponse defaultConfig {}
        ⟨"create", 1/2, {}, ⟨true, ["Когда?", "Где?"]⟩⟩).calls = [] :=
  claim_C4 defaultConfig {} ⟨"create", 1/2, {}, ⟨true, ["Когда?", "Где?"]⟩⟩
    "Когда?" ["Где?"] rfl rfl

/-! ### C10 -/

/-- C10: with `clarify.needed = true` but an empty question list, no
clarification state is stored and no question is sent: evaluation falls
through to the confidence check and the normal dispatch, exactly as for
`clarify.needed = false`; no state of the clarifying variant can result. -/
theorem claim_C10 (cfg : Config) (env : CalendarEnv) (resp : LLMResponseModel)
    (hneeded : resp.clarify.needed = true)
    (hq : resp.clarify.questions = []) :
    processLLMResponse cfg env resp =
      (if resp.confidence < cfg.LLM_CONFIDENCE_THRESHOLD then
        { replies := [confirmationPrompt resp]
          calls := []
          state := some (PendingState.waitingConfirmation resp.intent resp.slots) }
      else dispatchIntent env resp) ∧
    (∀ i s qs n, (processLLMResponse cfg env resp).state ≠
      some (PendingState.clarifying i s qs n)) := by
  obtain ⟨intent, conf, slots, clarify⟩ := resp
  obtain ⟨needed, questions⟩ := clarify
  simp only [ClarifyModel.needed, ClarifyModel.questions] at hneeded hq
  subst hneeded
  subst hq
  constructor
  · rfl
  · intro i s qs n
    by_cases hlt : conf < cfg.LLM_CONFIDENCE_THRESHOLD
    · have : processLLMResponse cfg env ⟨intent, conf, slots, ⟨true, []⟩⟩ =
          { replies := [confirmationPrompt ⟨intent, conf, slots, ⟨true, []⟩⟩]
            calls := []
            state := some (PendingState.waitingConfirmation intent slots) } := by
        unfold processLLMResponse
        dsimp only
        rw [if_pos hlt]
      simp [this]
    · have : processLLMResponse cfg env ⟨intent, conf, slots, ⟨true, []⟩⟩ =
          dispatchIntent env ⟨intent, conf, slots, ⟨true, []⟩⟩ := by
        unfold processLLMResponse
        dsimp only
        rw [if_neg hlt]
      rw [this]
      rcases dispatchIntent_state env ⟨intent, conf, slots, ⟨true, []⟩⟩ with h | ⟨eid, h⟩ <;>
        simp [h]

/-- C10 witness: `needed = true`, `questions = []`, confidence `0.9` —
the turn equals the plain dispatch of the intent. -/
theorem claim_C10_witness :
    processLLMResponse defaultConfig {} ⟨"unknown", 9/10, {}, ⟨true, []⟩⟩ =
      (if (9/10 : ℚ) < defaultConfig.LLM_CONFIDENCE_THRESHOLD then
        { replies := [confirmationPrompt ⟨"unknown", 9/10, {}, ⟨true, []⟩⟩]
          calls := []
          state := some (PendingState.waitingConfirmation "unknown" {}) }
      else dispatchIntent {} ⟨"unknown", 9/10, {}, ⟨true, []⟩⟩) ∧
    (∀ i s qs n, (processLLMResponse defaultConfig {} ⟨"unknown", 9/10, {}, ⟨true, []⟩⟩).state ≠
      some (PendingState.clarifying i s qs n)) :=
  claim_C10 defaultConfig {} ⟨"unknown", 9/10, {}, ⟨true, []⟩⟩ rfl rfl

/-! ### C3 -/

/-- C3: a delete resolved by title search (no `event_id`, title present)
with exactly one match never calls the collaborator's delete in that
turn — it stores an awaiting-delete-confirmation state and asks yes/no —
whereas a delete with `event_id` present deletes immediately and stores
no state. -/
theorem claim_C3 (env : CalendarEnv) (slots : SlotsModel) (e : CalEvent) :
    ((strTruthy slots.event_id = false → strTruthy slots.title = true →
      find_events_by_title_and_date env (slots.title.getD "")
        (deleteTargetDate env slots) = [e] →
      (handleDelete env slots).calls =
        [CalCall.listEvents (deleteTargetDate env slots)] ∧
      (∀ x, CalCall.deleteEvent x ∉ (handleDelete env slots).calls) ∧
      (handleDelete env slots).state =
        some (PendingState.waitingDeleteConfirmation e.id) ∧
      (handleDelete env slots).replies = [deleteSingleMatchMessage e])) ∧
    (strTruthy slots.event_id = true →
      (handleDelete env slots).calls =
        [CalCall.deleteEvent (slots.event_id.getD "")] ∧
      (handleDelete env slots).state = none) := by
  constructor
  · intro hid htitle hfind
    have hred : handleDelete env slots =
        { replies := [deleteSingleMatchMessage e]
          calls := [CalCall.listEvents (deleteTargetDate env slots)]
          state := some (PendingState.waitingDeleteConfirmation e.id) } := by
      unfold handleDelete
      rw [hid, htitle]
      dsimp only
      rw [hfind]
      rfl
    rw [hred]
    exact ⟨rfl, by simp, rfl, rfl⟩
  · intro hid
    have hred : handleDelete env slots =
        { replies := [if env.deleteResult then "✅ Событие удалено."
                      else "❌ Не удалось удалить событие."]
          calls := [CalCall.deleteEvent (slots.event_id.getD "")]
          state := none } := by
      unfold handleDelete
      rw [hid]
      rfl
    rw [hred]
    exact ⟨rfl, rfl⟩

/-- C3 witness: a one-match title search stores the confirmation state
without deleting; an explicit `event_id` deletes at once with no
state. -/
theorem claim_C3_witness :
    (handleDelete
        { listResult := [⟨"abcdefghijkl", some "Team meeting", some "2025-11-27T15:00:00+03:00", none⟩]
          today := "2025-11-27" }
        { title := some "meeting" }).state =
      some (PendingState.waitingDeleteConfirmation "abcdefghijkl") ∧
    (∀ x, CalCall.deleteEvent x ∉
      (handleDelete
        { listResult := [⟨"abcdefghijkl", some "Team meeting", some "2025-11-27T15:00:00+03:00", none⟩]
          today := "2025-11-27" }
        { title := some "meeting" }).calls) ∧
    (handleDelete {} { event_id := some "abc123" }).calls =
      [CalCall.deleteEvent "abc123"] ∧
    (handleDelete {} { event_id := some "abc123" }).state = none := by
  refine ⟨?_, ?_, ?_, ?_⟩
  · exact ((claim_C3
      { listResult := [⟨"abcdefghijkl", some "Team meeting", some "2025-11-27T15:00:00+03:00", none⟩]
        today := "2025-11-27" }
      { title := some "meeting" }
      ⟨"abcdefghijkl", some "Team meeting", some "2025-11-27T15:00:00+03:00", none⟩).1
      rfl rfl (by decide)).2.2.1
  · exact ((claim_C3
      { listResult := [⟨"abcdefghijkl", some "Team meeting", some "2025-11-27T15:00:00+03:00", none⟩]
        today := "2025-11-27" }
      { title := some "meeting" }
      ⟨"abcdefghijkl", some "Team meeting", some "2025-11-27T15:00:00+03:00", none⟩).1
      rfl rfl (by decide)).2.1
  · exact ((claim_C3 {} { event_id := some "abc123" }
      ⟨"", none, none, none⟩).2 rfl).1
  · exact ((claim_C3 {} { event_id := some "abc123" }
      ⟨"", none, none, none⟩).2 rfl).2

/-! ### C6 -/

/-- C6: a create dispatch missing the title or the start slot sends the
validation message naming the required data and makes no calendar call;
with both present it calls the collaborator's create operation with the
slots as given. -/
theorem claim_C6 (env : CalendarEnv) (slots : SlotsModel) :
    ((strTruthy slots.title = false ∨ strTruthy slots.start = false) →
      (handleCreate env slots).replies =
        ["Для создания события необходимо указать название и время начала. " ++
          "Пожалуйста, уточните эти данные."] ∧
      (handleCreate env slots).calls = []) ∧
    (strTruthy slots.title = true → strTruthy slots.start = true →
      (handleCreate env slots).calls =
        [CalCall.create (slots.title.getD "") (slots.start.getD "")
          slots.«end» slots.description slots.location slots.participants]) := by
  constructor
  · intro h
    have hcond : (!strTruthy slots.title || !strTruthy slots.start) = true := by
      rcases h with h | h <;> simp [h]
    unfold handleCreate
    rw [if_pos hcond]
    exact ⟨rfl, rfl⟩
  · intro h1 h2
    have hcond : (!strTruthy slots.title || !strTruthy slots.start) = false := by
      simp [h1, h2]
    unfold handleCreate
    simp only [hcond, Bool.false_eq_true, if_false]
    split <;> rfl

/-- C6 witness: missing start → validation reply, no call; title and
start present → exactly the create call. -/
theorem claim_C6_witness :
    (handleCreate {} { title := some "Встреча" }).calls = [] ∧
    (handleCreate {} { title := some "Встреча", start := some "2025-11-27T15:00:00+03:00" }).calls =
      [CalCall.create "Встреча" "2025-11-27T15:00:00+03:00" none none none none] :=
  ⟨((claim_C6 {} { title := some "Встреча" }).1 (Or.inr rfl)).2,
   (claim_C6 {} { title := some "Встреча", start := some "2025-11-27T15:00:00+03:00" }).2
      rfl rfl⟩

/-! ### C8 -/

/-- C8: the event body `create_event` sends to the calendar backend has
end time equal to the given end when present, and to
`start + DEFAULT_EVENT_DURATION_MIN minutes` when absent; the configured
default is 60 minutes. -/
theorem claim_C8 (cfg : Config) (title : String) (start_dt : Int)
    (end_dt : Option Int) (description location : Option String)
    (participants : Option (List String)) :
    (create_event cfg title start_dt end_dt description location participants).endDt =
      (match end_dt with
       | some e => e
       | none => start_dt + cfg.DEFAULT_EVENT_DURATION_MIN * 60) ∧
    defaultConfig.DEFAULT_EVENT_DURATION_MIN = 60 := by
  constructor
  · unfold create_event
    rcases hp : attendeesDescLoop (participants.getD []) (participants.getD []) [] description
      with ⟨atts, desc⟩
    cases end_dt <;> simp [hp]
  · rfl

/-! ### C5 -/

/-- C5 counterexample: with a stored intent of `"unknown"`, an affirmative
reply clears the state but sends nothing at all — not the fixed help
message that a direct dispatch of `"unknown"` would send.  So affirmative
confirmation is NOT equivalent to the fresh-evaluation dispatch rules 3/4
for every stored intent. -/
theorem claim_C5_counterexample :
    (handleClarificationResponse {} (PendingState.waitingConfirmation "unknown" {}) "да") =
      { replies := [], calls := [], state := none } ∧
    (dispatchIntent {} (rematerialize "unknown" {})).replies = [helpMessage] ∧
    ([] : List String) ≠ [helpMessage] := by
  refine ⟨by decide, rfl, by simp⟩

/-- C5 (amended): an affirmative reply to an awaiting-intent-confirmation
state re-materializes the Intent Result with confidence forced to 1.0,
clears the state, and behaves as the direct dispatch of the stored intent
when that intent is create, list or delete; for any other stored intent
(including "unknown") it clears the state and sends nothing.  A negative
reply clears the state and asks the user to restate the request. -/
theorem claim_C5 (env : CalendarEnv) (intent : String) (slots : SlotsModel)
    (msg : String) :
    (pyStrip (pyLower msg) ∈ affirmativeTokens →
      handleClarificationResponse env (PendingState.waitingConfirmation intent slots) msg =
        (if intent = "create" ∨ intent = "list" ∨ intent = "delete" then
          dispatchIntent env (rematerialize intent slots)
        else { replies := [], calls := [], state := none })) ∧
    (pyStrip (pyLower msg) ∈ negativeTokens →
      handleClarificationResponse env (PendingState.waitingConfirmation intent slots) msg =
        { replies := ["Понятно. Пожалуйста, переформулируйте ваш запрос более подробно."]
          calls := []
          state := none }) ∧
    (rematerialize intent slots).confidence = 1 ∧
    (rematerialize intent slots).slots = slots := by
  refine ⟨?_, ?_, rfl, rfl⟩
  · intro h
    unfold handleClarificationResponse
    dsimp only
    rw [if_pos h]
    unfold dispatchIntent rematerialize
    dsimp only
    by_cases h1 : intent = "create"
    · simp [h1]
    · by_cases h2 : intent = "list"
      · simp [h1, h2]
      · by_cases h3 : intent = "delete"
        · simp [h1, h2, h3]
        · simp [h1, h2, h3]
  · intro h
    have hna : pyStrip (pyLower msg) ∉ affirmativeTokens := by
      have hx := h
      simp only [negativeTokens, List.mem_cons, List.not_mem_nil, or_false] at hx
      rcases hx with hx | hx | hx | hx <;> rw [hx] <;> decide
    unfold handleClarificationResponse
    dsimp only
    rw [if_neg hna, if_pos h]

/-- C5 witness: stored intent "unknown" with reply "да" takes the
else-branch (nothing sent); stored intent "create" with reply "нет"
clears state and asks to restate. -/
theorem claim_C5_witness :
    handleClarificationResponse {} (PendingState.waitingConfirmation "unknown" {}) "да" =
      (if ("unknown" = "create" ∨ "unknown" = "list" ∨ "unknown" = "delete") then
        dispatchIntent {} (rematerialize "unknown" {})
      else { replies := [], calls := [], state := none }) ∧
    handleClarificationResponse {} (PendingState.waitingConfirmation "create" {}) "нет" =
      { replies := ["Понятно. Пожалуйста, переформулируйте ваш запрос более подробно."]
        calls := []
        state := none } :=
  ⟨(claim_C5 {} "unknown" {} "да").1 (by decide),
   (claim_C5 {} "create" {} "нет").2.1 (by decide)⟩

/-! ### C7 -/

/-- `n`-fold application of the description-update step with the same
label line `j` (left to right, as the source loop performs it). -/
def descAppendIter (j : String) : Nat → Option String → Option String
  | 0, d => d
  | n + 1, d => descAppendIter j n (descAppend d j)

/-- The participant handling as C7's sentence describes it (comparison
target): invitees are the participants containing `"@"`, and only the
plain names are appended — once — comma-joined under the fixed label. -/
def specPartitionParticipants (ps : List String) (d : Option String) :
    List String × Option String :=
  let plain := ps.filter fun p => !p.toList.contains '@'
  (ps.filter fun p => p.toList.contains '@',
   if plain.isEmpty then d else descAppend d ("Участники: " ++ commaJoin plain))

/-- Closed form of the participants loop: attendees are the filter of the
`"@"`-containing participants, and the description receives one
`descAppend` of the label built from the FULL list per plain-name
participant. -/
theorem attendeesDescLoop_spec (allParts : List String) (l : List String)
    (atts : List String) (d : Option String) :
    attendeesDescLoop allParts l atts d =
      (atts ++ l.filter (fun p => p.toList.contains '@'),
       descAppendIter ("Участники: " ++ commaJoin allParts)
         ((l.filter fun p => !p.toList.contains '@').length) d) := by
  induction l generalizing atts d with
  | nil => simp [attendeesDescLoop, descAppendIter]
  | cons p rest ih =>
    by_cases hp : '@' ∈ p.data
    · simp [attendeesDescLoop, hp, ih, List.filter_cons, descAppendIter,
        List.append_assoc]
    · simp [attendeesDescLoop, hp, ih, List.filter_cons, descAppendIter]

/-- C7 counterexample: with participants `["Вадим", "a@b.com"]` and no
prior description, the code appends the email participant into the
description too (the join is over the full list), and with two plain
names the label block is appended twice — both contradicting the claimed
partition. -/
theorem claim_C7_counterexample :
    attendeesDescLoop ["Вадим", "a@b.com"] ["Вадим", "a@b.com"] [] none ≠
      specPartitionParticipants ["Вадим", "a@b.com"] none ∧
    (create_event defaultConfig "Встреча" 0 none none none
        (some ["Вадим", "a@b.com"])).description =
      some "Участники: Вадим, a@b.com" ∧
    (create_event defaultConfig "Встреча" 0 none none none
        (some ["Вадим", "Петя"])).description =
      some "Участники: Вадим, Петя\nУчастники: Вадим, Петя" := by
  refine ⟨by decide, by decide, by decide⟩

/-- C7 (amended): participants containing `"@"` become the attendees, in
order; for EACH participant without `"@"`, the label `"Участники: "`
followed by the comma-join of the FULL participants list (emails
included) is appended to the description — so the block appears once per
plain-name participant and email participants do appear in the
description. -/
theorem claim_C7 (cfg : Config) (title : String) (start_dt : Int)
    (end_dt : Option Int) (description location : Option String)
    (ps : List String) :
    (create_event cfg title start_dt end_dt description location (some ps)).attendees =
      ps.filter (fun p => p.toList.contains '@') ∧
    (create_event cfg title start_dt end_dt description location (some ps)).description =
      (let dfin := descAppendIter ("Участники: " ++ commaJoin ps)
        ((ps.filter fun p => !p.toList.contains '@').length) description
       if strTruthy dfin then dfin else none) := by
  have h := attendeesDescLoop_spec ps ps [] description
  constructor
  · simp [create_event, h]
  · simp [create_event, h]

/-! ### C9 -/

/-- Every listed event's truncated identifier occurs inside the
enumerated lines. -/
theorem enumLines_decomp (l : List CalEvent) (e : CalEvent) (he : e ∈ l)
    (i : Nat) :
    ∃ pre post, enumLines deleteMultiLine i l = pre ++ e.id.take 8 ++ post := by
  induction l generalizing i with
  | nil => cases he
  | cons hd tl ih =>
    rcases List.mem_cons.mp he with rfl | hmem
    · refine ⟨toString i ++ ". " ++ e.summary.getD "Без названия" ++ " (ID: ",
        "...)\n" ++ enumLines deleteMultiLine (i + 1) tl, ?_⟩
      show deleteMultiLine i e ++ enumLines deleteMultiLine (i + 1) tl = _
      apply String.ext
      simp [deleteMultiLine, String.data_append, List.append_assoc]
    · obtain ⟨pre, post, hp⟩ := ih hmem (i + 1)
      refine ⟨deleteMultiLine i hd ++ pre, post, ?_⟩
      show deleteMultiLine i hd ++ enumLines deleteMultiLine (i + 1) tl = _
      rw [hp]
      apply String.ext
      simp [String.data_append, List.append_assoc]

/-- Every matched event's truncated identifier occurs inside the
multiple-match reply. -/
theorem deleteMultiMatchMessage_has_id (title : String) (found : List CalEvent)
    (e : CalEvent) (he : e ∈ found) :
    ∃ pre post, deleteMultiMatchMessage title found =
      pre ++ e.id.take 8 ++ post := by
  obtain ⟨pre, post, hp⟩ := enumLines_decomp found e he 1
  refine ⟨"Найдено несколько событий с названием '" ++ title ++ "':\n\n" ++ pre,
    post ++ "\nПожалуйста, укажите ID события для удаления.", ?_⟩
  unfold deleteMultiMatchMessage
  rw [hp]
  apply String.ext
  simp [String.data_append, List.append_assoc]

/-- C9: a delete-by-title search with two or more matches replies with
the enumeration of all matches (each with its truncated identifier),
stores no pending state, and the next inbound message from this identity
is evaluated as fresh input. -/
theorem claim_C9 (cfg : Config) (env : CalendarEnv) (slots : SlotsModel)
    (e1 e2 : CalEvent) (rest : List CalEvent)
    (hid : strTruthy slots.event_id = false)
    (htitle : strTruthy slots.title = true)
    (hfind : find_events_by_title_and_date env (slots.title.getD "")
      (deleteTargetDate env slots) = e1 :: e2 :: rest) :
    (handleDelete env slots).state = none ∧
    (∀ x, CalCall.deleteEvent x ∉ (handleDelete env slots).calls) ∧
    (handleDelete env slots).replies =
      [deleteMultiMatchMessage (slots.title.getD "") (e1 :: e2 :: rest)] ∧
    (∀ e ∈ e1 :: e2 :: rest, ∃ pre post,
      deleteMultiMatchMessage (slots.title.getD "") (e1 :: e2 :: rest) =
        pre ++ e.id.take 8 ++ post) ∧
    (∀ (env2 : CalendarEnv) (llm2 : LLMEnv) (msg : String) (r : LLMResponseModel),
      llm2.parseResult = some r →
      handleMessage cfg env2 llm2 (handleDelete env slots).state msg =
        processLLMResponse cfg env2 r) := by
  have hred : handleDelete env slots =
      { replies := [deleteMultiMatchMessage (slots.title.getD "") (e1 :: e2 :: rest)]
        calls := [CalCall.listEvents (deleteTargetDate env slots)]
        state := none } := by
    unfold handleDelete
    rw [hid, htitle]
    dsimp only
    rw [hfind]
    rfl
  rw [hred]
  refine ⟨rfl, by simp, rfl, ?_, ?_⟩
  · intro e he
    exact deleteMultiMatchMessage_has_id (slots.title.getD "") (e1 :: e2 :: rest) e he
  · intro env2 llm2 msg r hparse
    unfold handleMessage
    dsimp only
    rw [hparse]

/-- C9 witness: a two-match search — the confirmation state is absent,
no delete call is made, and a follow-up parsed message is processed
fresh. -/
theorem claim_C9_witness :
    (handleDelete
        { listResult := [⟨"abcdefghijkl", some "Team meeting", none, none⟩,
                         ⟨"zyxwvutsrqpo", some "Design meeting", none, none⟩]
          today := "2025-11-27" }
        { title := some "meeting" }).state = none ∧
    (∀ x, CalCall.deleteEvent x ∉
      (handleDelete
        { listResult := [⟨"abcdefghijkl", some "Team meeting", none, none⟩,
                         ⟨"zyxwvutsrqpo", some "Design meeting", none, none⟩]
          today := "2025-11-27" }
        { title := some "meeting" }).calls) ∧
    (handleDelete
        { listResult := [⟨"abcdefghijkl", some "Team meeting", none, none⟩,
                         ⟨"zyxwvutsrqpo", some "Design meeting", none, none⟩]
          today := "2025-11-27" }
        { title := some "meeting" }).replies =
      [deleteMultiMatchMessage "meeting"
        [⟨"abcdefghijkl", some "Team meeting", none, none⟩,
         ⟨"zyxwvutsrqpo", some "Design meeting", none, none⟩]] := by
  have h := claim_C9 defaultConfig
    { listResult := [⟨"abcdefghijkl", some "Team meeting", none, none⟩,
                     ⟨"zyxwvutsrqpo", some "Design meeting", none, none⟩]
      today := "2025-11-27" }
    { title := some "meeting" }
    ⟨"abcdefghijkl", some "Team meeting", none, none⟩
    ⟨"zyxwvutsrqpo", some "Design meeting", none, none⟩ []
    rfl rfl (by decide)
  exact ⟨h.1, h.2.1, h.2.2.1⟩
